import Mathlib

set_option linter.unusedVariables false

/-!
A shallow embedding of `src/events.c` (c11-events): a Win32-style event
object (an auto-reset or manual-reset latch guarded by a mutex and
condition variable) and the multi-wait coordinator `event_wait_multiple`.

Modelling conventions:
* Machine state that the current call reads from shared memory at a
  suspension point (the `signaled` flag after a condvar wakeup, a proxy's
  `done` bit, join statuses and join results, statuses of every fallible
  thread-primitive call) is supplied by explicit oracle structures, one
  entry per dynamic occurrence in program order.
* Calls wrapped in `CHECK_THRD_ERR` abort the whole process on failure,
  so a returning execution implies they succeeded; they carry no oracle
  entry.
* Functions return, besides the C return value, the final value stored
  through out-pointers and a trace of the externally visible actions
  (stores to event flags, notifications, lock/unlock of event mutexes,
  spawn/join of proxy threads, cancellation).  A result of `none` for
  the returned error code means the call never returns (it blocks
  forever, e.g. the oracle provides no further wakeups).
-/

namespace C11Events

/-- Status codes returned by the C11 `thrd_`/`mtx_`/`cnd_` primitives:
`thrd_success`, `thrd_nomem`, `thrd_timedout`, `thrd_busy`, `thrd_error`. -/
inductive ThrdStatus
  | success
  | nomem
  | timedout
  | busy
  | error
deriving DecidableEq, Repr

/-- Linux errno values, as used by the translation unit. -/
def EINVAL : Int := 22

/-- Linux ENOMEM. -/
def ENOMEM : Int := 12

/-- Linux EBUSY. -/
def EBUSY : Int := 16

/-- Linux ETIMEDOUT. -/
def ETIMEDOUT : Int := 110

/-- Linux ECANCELED. -/
def ECANCELED : Int := 125

/-- C: `_thrd_status_to_errno` (events.c:34). -/
def thrd_status_to_errno : ThrdStatus → Int
  | .success => 0
  | .nomem => ENOMEM
  | .timedout => ETIMEDOUT
  | .busy => EBUSY
  | .error => -1

/-- The data fields of `struct _event_t` (events.c:13); the `mtx`/`cnd`
members are modelled by the oracle statuses of the operations applied to
them. -/
structure EventState where
  signaled : Bool
  is_manual_reset : Bool
deriving DecidableEq, Repr

/-- Externally visible actions of the single-event operations. -/
inductive SignalAct
  | set_signaled (b : Bool)
  | notify_one
  | notify_all
deriving DecidableEq, Repr

/-- Oracle for one `event_signal` call: the statuses of its `mtx_lock`,
its `cnd_broadcast`/`cnd_signal`, and its `mtx_unlock`. -/
structure SignalOracle where
  lockSt : ThrdStatus
  notifySt : ThrdStatus
  unlockSt : ThrdStatus
deriving DecidableEq, Repr

/-- Result of `event_signal`: errno, the event state after the call
(`none` for a null handle), and the actions performed under the lock. -/
structure SignalResult where
  err : Int
  event : Option EventState
  acts : List SignalAct
deriving DecidableEq, Repr

/-- C: `event_signal` (events.c:129).  On a null handle: EINVAL.  With
the lock held: store `signaled = true`, then broadcast if manual-reset
else signal one waiter; the notify status is merged with the unlock
status exactly as the C does. -/
def event_signal (p_event : Option EventState) (o : SignalOracle) : SignalResult :=
  match p_event with
  | none => ⟨EINVAL, none, []⟩
  | some e =>
    if o.lockSt = .success then
      let n := if e.is_manual_reset then SignalAct.notify_all else SignalAct.notify_one
      let st := if o.notifySt = .success then o.unlockSt else o.notifySt
      ⟨thrd_status_to_errno st, some { e with signaled := true }, [.set_signaled true, n]⟩
    else
      ⟨thrd_status_to_errno o.lockSt, some e, []⟩

/-- C: `event_reset` (events.c:147).  Returns errno and the event state
after the call. -/
def event_reset (p_event : Option EventState) (lockSt unlockSt : ThrdStatus) :
    Int × Option EventState :=
  match p_event with
  | none => (EINVAL, none)
  | some e =>
    if lockSt = .success then
      (thrd_status_to_errno unlockSt, some { e with signaled := false })
    else
      (thrd_status_to_errno lockSt, some e)

/-- C: `event_pulse` (events.c:161): `event_signal`, then `event_reset`
if the signal succeeded. -/
def event_pulse (p_event : Option EventState) (so : SignalOracle)
    (rLockSt rUnlockSt : ThrdStatus) : Int × Option EventState :=
  let s := event_signal p_event so
  if s.err = 0 then event_reset s.event rLockSt rUnlockSt
  else (s.err, s.event)

/-- C: `event_init` (events.c:103).  `present` models whether the handle
is non-null; the statuses are those of `mtx_init` and `cnd_init`. -/
def event_init (present : Bool) (is_manual_reset initial_state : Bool)
    (mtxSt cndSt : ThrdStatus) : Int × Option EventState :=
  if present = false then (EINVAL, none)
  else if mtxSt = .success then
    if cndSt = .success then (0, some ⟨initial_state, is_manual_reset⟩)
    else (thrd_status_to_errno cndSt, none)
  else (thrd_status_to_errno mtxSt, none)

/-- Oracle for one `event_wait` call: the `mtx_lock` status, and for each
condvar wait performed, its status together with the value of
`p_event->signaled` observed after the wakeup (other threads may have
changed it while we slept), and the final `mtx_unlock` status. -/
structure WaitOracle where
  lockSt : ThrdStatus
  wakeups : List (ThrdStatus × Bool)
  unlockSt : ThrdStatus
deriving DecidableEq, Repr

/-- The do/while loop of `event_wait` (events.c:176).  Arguments: the
`is_manual_reset` flag, the currently observed `signaled` value, the
remaining wakeups.  Returns `none` when the oracle provides no further
wakeup (the thread blocks forever), else the exit status of the loop,
the value of `signaled` as left under the lock, and the number of
condvar waits performed. -/
def event_wait_loop (manual : Bool) : Bool → List (ThrdStatus × Bool) →
    Option (ThrdStatus × Bool × Nat)
  | true, _ => some (.success, manual, 0)
  | false, [] => none
  | false, (st, obs) :: rest =>
    if st = .success then
      (event_wait_loop manual obs rest).map (fun r => (r.1, r.2.1, r.2.2 + 1))
    else
      some (st, false, 1)

/-- C: `event_wait` (events.c:168).  `has_deadline` models whether
`p_time` is non-null (it selects `cnd_timedwait` over `cnd_wait`; both
statuses come from the oracle).  Returns the errno (`none` = the call
never returns), the event state left under the lock, and the number of
condvar waits performed. -/
def event_wait (p_event : Option EventState) (has_deadline : Bool) (o : WaitOracle) :
    Option Int × Option EventState × Nat :=
  match p_event with
  | none => (some EINVAL, none, 0)
  | some e =>
    if o.lockSt = .success then
      match event_wait_loop e.is_manual_reset e.signaled o.wakeups with
      | none => (none, some e, o.wakeups.length)
      | some (st, fin, n) =>
        let stF := if st = .success then o.unlockSt else st
        (some (thrd_status_to_errno stF), some { e with signaled := fin }, n)
    else
      (some (thrd_status_to_errno o.lockSt), some e, 0)

/-- Oracle for one proxy run of `_event_wait_helper`: the `mtx_lock`
status on the target event, and for each condvar wait the triple of its
status, the `canceled` flag observed (under the rendezvous mutex), and
the `signaled` flag observed, plus the `mtx_unlock` status. -/
structure HelperOracle where
  lockSt : ThrdStatus
  wakeups : List (ThrdStatus × Bool × Bool)
  unlockSt : ThrdStatus
deriving DecidableEq, Repr

/-- The condvar loop of `_event_wait_helper` (events.c:68).  Note the C
short-circuit `canceled || (signaled = p_event->signaled)`: when
`canceled` is observed the local `signaled` is not re-read and stays
false.  Returns `none` when the proxy blocks forever, else the exit
status and the local `signaled` value. -/
def event_wait_helper_loop : List (ThrdStatus × Bool × Bool) → Option (ThrdStatus × Bool)
  | [] => none
  | (st, canc, sig) :: rest =>
    if st = .success then
      if canc then some (.success, false)
      else if sig then some (.success, true)
      else event_wait_helper_loop rest
    else
      some (st, false)

/-- C: `_event_wait_helper` (events.c:59), the proxy thread body
(leading underscore dropped).  The publication of `done` and the
rendezvous notification are `CHECK_THRD_ERR`-guarded and always happen
on a returning execution; what remains observable is the thread's exit
code: a primitive errno, else ECANCELED if `signaled` was not observed,
else 0. -/
def event_wait_helper (e : EventState) (o : HelperOracle) : Option Int :=
  if o.lockSt = .success then
    if e.signaled then
      some (thrd_status_to_errno o.unlockSt)
    else
      match event_wait_helper_loop o.wakeups with
      | none => none
      | some (st, sig) =>
        let stF := if st = .success then o.unlockSt else st
        if stF = .success then
          if sig then some 0 else some ECANCELED
        else
          some (thrd_status_to_errno stF)
  else
    some (thrd_status_to_errno o.lockSt)

/-- An array of event handles (`event_t**`): each element may be null.
(A null element reaching a proxy would crash the C program; the claims
only exercise it where the code checks for it.) -/
abbrev EvArr := List (Option EventState)

/-- Dereference `p_events[i]`.  Out-of-range or null accesses are
undefined behaviour in the C; the model returns a dummy event there. -/
def event_at (evs : EvArr) (i : Nat) : EventState :=
  (evs.getD i none).getD ⟨false, false⟩

/-- Externally visible actions of `event_wait_multiple`, in program
order.  `clear i` is the store `p_events[i]->signaled = false`;
`lock`/`unlock` are on event i's mutex; `cancel i` is the store
`p_waiters[i].canceled = true` (made under event i's mutex) and
`broadcast i` the `cnd_broadcast` on event i's condvar; `join i` is a
`thrd_join` whose result is read, `join_discard i` one whose result is
ignored. -/
inductive Act
  | spawn (i : Nat)
  | spawn_fail (i : Nat)
  | join (i : Nat)
  | join_discard (i : Nat)
  | lock (i : Nat)
  | unlock (i : Nat)
  | clear (i : Nat)
  | cancel (i : Nat)
  | broadcast (i : Nat)
  | restart
deriving DecidableEq, Repr

/-- Outcome of one `thrd_join` whose result is read: the join status and
the joined proxy thread's exit code (`err`). -/
structure JoinOutcome where
  st : ThrdStatus
  err : Int
deriving DecidableEq, Repr

/-- Oracle for one pass of the coordinator's do/while loop: the `done`
bit of each proxy as observed under the rendezvous mutex, the per-event
`signaled` values and `mtx_lock`/`mtx_unlock` statuses of a group
verification, whether the extra `mtx_lock` of the wait_any auto-reset
consume succeeds, and the status of the rendezvous condvar wait ending
the pass.  Short oracle lists fall back to defaults (not done /
signaled / success). -/
structure IterOracle where
  doneFlags : List Bool
  verifyObs : List Bool
  verifyLockSt : List ThrdStatus
  verifyUnlockSt : List ThrdStatus
  anyLockOk : Bool
  cndWaitSt : ThrdStatus
deriving DecidableEq, Repr

/-- Oracle for one round (one trip from `restart_wait`): `thrd_create`
statuses, the join outcome of each proxy (used the first time it is
joined in a scan), and one `IterOracle` per loop pass. -/
structure RoundOracle where
  createSt : List ThrdStatus
  joins : List JoinOutcome
  iters : List IterOracle
deriving DecidableEq, Repr

/-- Oracle for one `event_wait_multiple` call.  `callocOk` is the proxy
array allocation (failure returns `errno`, modelled as ENOMEM per the
POSIX allocator contract); `single` feeds the count-one delegation to
`event_wait`. -/
structure MultiOracle where
  callocOk : Bool
  mtxInitSt : ThrdStatus
  cndInitSt : ThrdStatus
  single : WaitOracle
  rounds : List RoundOracle
deriving DecidableEq, Repr

/-- The proxy-spawning loop (events.c:223-237), over the index list
`List.range c`.  Returns the trace and, on a `thrd_create` failure, the
failing index and its status.  On failure the C joins the
already-spawned proxies directly (without cancelling them) and exits
via `clean_up_wait_info_cnd`. -/
def spawn_proxies (createSt : List ThrdStatus) : List Nat → List Act × Option (Nat × ThrdStatus)
  | [] => ([], none)
  | i :: rest =>
    let st := createSt.getD i .success
    if st = .success then
      let r := spawn_proxies createSt rest
      (Act.spawn i :: r.1, r.2)
    else
      ([Act.spawn_fail i], some (i, st))

/-- One wait_all scan pass over the proxies (events.c:245-266): join
each done proxy once; a join failure exits early with that status and
`err` reset to 0; a nonzero proxy exit code exits early with it; a
proxy not done clears `all_signaled`.  Returns the updated joinable
flags, the join trace, `all_signaled`, and the early exit if any. -/
def wait_all_scan (doneF : List Bool) (joins : List JoinOutcome) :
    List Nat → List Bool → Bool →
    List Bool × List Act × Bool × Option (ThrdStatus × Int)
  | [], joinable, allSig => (joinable, [], allSig, none)
  | i :: rest, joinable, allSig =>
    if doneF.getD i false then
      if joinable.getD i true then
        let jo := joins.getD i ⟨.success, 0⟩
        let joinable2 := joinable.set i false
        if jo.st = .success then
          if jo.err = 0 then
            let r := wait_all_scan doneF joins rest joinable2 allSig
            (r.1, Act.join i :: r.2.1, r.2.2.1, r.2.2.2)
          else
            (joinable2, [Act.join i], allSig, some (.success, jo.err))
        else
          (joinable2, [Act.join i], allSig, some (jo.st, 0))
      else
        wait_all_scan doneF joins rest joinable allSig
    else
      wait_all_scan doneF joins rest joinable false

/-- The lock-and-check phase of group verification (events.c:269-278),
over `List.range c`: acquire event mutexes in input order; stop on a
lock failure (`all_signaled` left true, the failing mutex not acquired)
or on observing an unsignaled event (its mutex acquired, `all_signaled`
set false).  Returns the C loop variable `locked` at exit, the trace of
acquired locks, `all_signaled`, and the status. -/
def group_verify_lock (obs : List Bool) (lockSt : List ThrdStatus) :
    List Nat → Nat × List Act × Bool × ThrdStatus
  | [] => (0, [], true, .success)
  | i :: rest =>
    let st := lockSt.getD i .success
    if st = .success then
      if obs.getD i true then
        let r := group_verify_lock obs lockSt rest
        (r.1 + 1, Act.lock i :: r.2.1, r.2.2.1, r.2.2.2)
      else
        (0, [Act.lock i], false, .success)
    else
      (0, [], true, st)

/-- The unlock phase of group verification (events.c:280-286), over
`List.range locked`: for each index, clear `signaled` when
`all_signaled` held and the event is auto-reset, then unlock; the C
variable `thrd_status_2` ends as the status of the last unlock
performed (success when none is). -/
def group_verify_unlock (evs : EvArr) (unlockSt : List ThrdStatus) (allSig : Bool) :
    List Nat → List Act × ThrdStatus
  | [] => ([], .success)
  | i :: rest =>
    let pre : List Act :=
      if allSig ∧ (event_at evs i).is_manual_reset = false then [Act.clear i] else []
    let r := group_verify_unlock evs unlockSt allSig rest
    let stLast := if rest = [] then unlockSt.getD i .success else r.2
    (pre ++ Act.unlock i :: r.1, stLast)

/-- One wait_any scan pass (events.c:294-320), over `List.range c`:
find the first done proxy.  Join it if still joinable — a join failure
or a nonzero proxy exit code exits without writing the index.
Otherwise store its index through `p_idx_signaled_event` and, when the
event is auto-reset and the extra `mtx_lock` succeeds, clear its
`signaled` flag under that lock (a failed lock silently skips the
clear).  Returns the updated joinable flags, the trace, and the exit:
`none` when no proxy is done, else the optional index written together
with the status and `err`. -/
def wait_any_scan (evs : EvArr) (doneF : List Bool) (joins : List JoinOutcome)
    (anyLockOk : Bool) :
    List Nat → List Bool →
    List Bool × List Act × Option (Option Nat × ThrdStatus × Int)
  | [], joinable => (joinable, [], none)
  | i :: rest, joinable =>
    if doneF.getD i false then
      let consume : List Act :=
        if (event_at evs i).is_manual_reset = false ∧ anyLockOk then
          [Act.lock i, Act.clear i, Act.unlock i]
        else []
      if joinable.getD i true then
        let jo := joins.getD i ⟨.success, 0⟩
        let joinable2 := joinable.set i false
        if jo.st = .success then
          if jo.err = 0 then
            (joinable2, Act.join i :: consume, some (some i, .success, 0))
          else
            (joinable2, [Act.join i], some (none, .success, jo.err))
        else
          (joinable2, [Act.join i], some (none, jo.st, 0))
      else
        (joinable, consume, some (some i, .success, 0))
    else
      wait_any_scan evs doneF joins anyLockOk rest joinable

/-- The coordinator state at an exit of the do/while loop: the C
locals `thrd_status`, `err`, `all_signaled`, the `done` and `joinable`
flags at exit, the index written through the out pointer (if any), and
the trace so far. -/
structure IterExit where
  thrdSt : ThrdStatus
  err : Int
  allSig : Bool
  doneF : List Bool
  joinable : List Bool
  idxW : Option Nat
  tr : List Act
deriving Repr

/-- Outcome of the do/while loop: an exit into teardown, or blocked
forever (the oracle supplies no further rendezvous wakeup). -/
inductive LoopOut
  | exit (e : IterExit)
  | blocked (tr : List Act)
deriving Repr

/-- The coordinator's do/while loop (events.c:244-322).  In wait_all
mode: scan-join, then group verification when every proxy is done, else
wait on the rendezvous condvar.  In wait_any mode: take the first done
proxy, else wait.  (In wait_any the C never assigns `all_signaled`; the
restart test short-circuits on `wait_all` before reading it, so the
model passes `false`.) -/
def coordinator_loop (wait_all : Bool) (c : Nat) (evs : EvArr) (joins : List JoinOutcome) :
    List IterOracle → List Bool → List Act → LoopOut
  | [], _, tr => .blocked tr
  | it :: rest, joinable, tr =>
    if wait_all then
      let s := wait_all_scan it.doneFlags joins (List.range c) joinable true
      match s.2.2.2 with
      | some (st, e) =>
        .exit ⟨st, e, s.2.2.1, it.doneFlags, s.1, none, tr ++ s.2.1⟩
      | none =>
        if s.2.2.1 then
          let lk := group_verify_lock it.verifyObs it.verifyLockSt (List.range c)
          let ul := group_verify_unlock evs it.verifyUnlockSt lk.2.2.1 (List.range lk.1)
          let stF := if lk.2.2.2 = .success then ul.2 else lk.2.2.2
          .exit ⟨stF, 0, lk.2.2.1, it.doneFlags, s.1, none, tr ++ s.2.1 ++ lk.2.1 ++ ul.1⟩
        else
          if it.cndWaitSt = .success then
            coordinator_loop wait_all c evs joins rest s.1 (tr ++ s.2.1)
          else
            .exit ⟨it.cndWaitSt, 0, s.2.2.1, it.doneFlags, s.1, none, tr ++ s.2.1⟩
    else
      let s := wait_any_scan evs it.doneFlags joins it.anyLockOk (List.range c) joinable
      match s.2.2 with
      | some (idxO, st, e) =>
        .exit ⟨st, e, false, it.doneFlags, s.1, idxO, tr ++ s.2.1⟩
      | none =>
        if it.cndWaitSt = .success then
          coordinator_loop wait_all c evs joins rest s.1 (tr ++ s.2.1)
        else
          .exit ⟨it.cndWaitSt, 0, false, it.doneFlags, s.1, none, tr ++ s.2.1⟩

/-- Outcome of one round: a return value for the caller, a restart
(`goto restart_wait`), or blocked forever. -/
inductive RoundOut
  | ret (res : Int) (idxW : Option Nat) (tr : List Act)
  | restart (tr : List Act)
  | blocked (tr : List Act)
deriving Repr

/-- Teardown (events.c:324-348, label `clean_up_threads`): cancel every
proxy not done (store `canceled = true` under its event's lock and
broadcast that event's condvar), release the rendezvous mutex, join
every still-joinable proxy discarding results; then restart exactly
when in wait_all mode with `err == 0`, a success status, and
`all_signaled` false; otherwise return `err` if nonzero else the errno
of `thrd_status`. -/
def clean_up_threads (wait_all : Bool) (c : Nat) (e : IterExit) : RoundOut :=
  let cancels :=
    ((List.range c).filter (fun i => e.doneF.getD i false = false)).flatMap
      (fun i => [Act.cancel i, Act.broadcast i])
  let joins :=
    ((List.range c).filter (fun i => e.joinable.getD i true = true)).map Act.join_discard
  let tr := e.tr ++ cancels ++ joins
  if wait_all ∧ e.err = 0 ∧ e.thrdSt = .success ∧ e.allSig = false then
    .restart tr
  else
    .ret (if e.err = 0 then thrd_status_to_errno e.thrdSt else e.err) e.idxW tr

/-- One round of `event_wait_multiple` starting at `restart_wait`
(events.c:222): spawn the proxies (joining the already-spawned ones and
failing if a `thrd_create` fails), then run the coordinator loop and
tear down. -/
def wait_round (wait_all : Bool) (c : Nat) (evs : EvArr) (ro : RoundOracle) : RoundOut :=
  let sp := spawn_proxies ro.createSt (List.range c)
  match sp.2 with
  | some (k, st) =>
    .ret (thrd_status_to_errno st) none (sp.1 ++ (List.range k).map Act.join_discard)
  | none =>
    match coordinator_loop wait_all c evs ro.joins ro.iters (List.replicate c true) sp.1 with
    | .blocked tr => .blocked tr
    | .exit e => clean_up_threads wait_all c e

/-- Run rounds until one returns or blocks; an empty oracle means the
next round never finishes (blocked). -/
def wait_rounds (wait_all : Bool) (c : Nat) (evs : EvArr) :
    List RoundOracle → Option Int × Option Nat × List Act
  | [] => (none, none, [])
  | ro :: rest =>
    match wait_round wait_all c evs ro with
    | .ret r idxW tr => (some r, idxW, tr)
    | .blocked tr => (none, none, tr)
    | .restart tr =>
      let r := wait_rounds wait_all c evs rest
      (r.1, r.2.1, tr ++ Act.restart :: r.2.2)

/-- Result of `event_wait_multiple`: the returned errno (`none` = the
call never returns), the final value stored at `p_idx_signaled_event`
(`none` = null pointer), and the action trace. -/
structure MultiResult where
  res : Option Int
  idx : Option Nat
  trace : List Act
deriving DecidableEq, Repr

/-- C: `event_wait_multiple` (events.c:192).  `has_deadline` models
whether `p_time` is non-null (it only selects `cnd_timedwait` over
`cnd_wait`; the wait statuses come from the oracle), `has_out` whether
`p_idx_signaled_event` is non-null.  Checks in C order: store 0 through
the out pointer, count zero succeeds, null array or wait_any without
out pointer is EINVAL, count one delegates to `event_wait`, then the
allocation, the rendezvous primitive inits, and the rounds. -/
def event_wait_multiple (p_events : Option EvArr) (c_events : Nat) (wait_all : Bool)
    (has_deadline : Bool) (has_out : Bool) (o : MultiOracle) : MultiResult :=
  let idx0 : Option Nat := if has_out then some 0 else none
  if c_events = 0 then ⟨some 0, idx0, []⟩
  else
    match p_events with
    | none => ⟨some EINVAL, idx0, []⟩
    | some evs =>
      if wait_all = false ∧ has_out = false then ⟨some EINVAL, idx0, []⟩
      else if c_events = 1 then
        ⟨(event_wait (evs.getD 0 none) has_deadline o.single).1, idx0, []⟩
      else if o.callocOk = false then ⟨some ENOMEM, idx0, []⟩
      else if o.mtxInitSt = .success then
        if o.cndInitSt = .success then
          let r := wait_rounds wait_all c_events evs o.rounds
          ⟨r.1, if has_out then some (r.2.1.getD 0) else none, r.2.2⟩
        else ⟨some (thrd_status_to_errno o.cndInitSt), idx0, []⟩
      else ⟨some (thrd_status_to_errno o.mtxInitSt), idx0, []⟩

/-! Concrete inputs used by witnesses and counterexamples. -/

/-- A single-wait oracle where every primitive succeeds and no condvar
wait is needed. -/
def wOK : WaitOracle := ⟨.success, [], .success⟩

/-- A join that succeeds with proxy exit code 0. -/
def joinOK : JoinOutcome := ⟨.success, 0⟩

/-- A multi-wait oracle with successful setup and no rounds. -/
def oNull : MultiOracle := ⟨true, .success, .success, wOK, []⟩

/-! Claim theorems. -/

/-- C5: `event_signal` on a non-null event, once its mutex is acquired,
stores `signaled = true` and then notifies the event's condvar — a
broadcast if the event is manual-reset, a single-waiter notify
otherwise; the returned status merges the notify and unlock statuses. -/
theorem event_signal_sets_then_notifies (e : EventState) (o : SignalOracle)
    (h : o.lockSt = .success) :
    event_signal (some e) o =
      ⟨thrd_status_to_errno (if o.notifySt = .success then o.unlockSt else o.notifySt),
       some { e with signaled := true },
       [.set_signaled true, if e.is_manual_reset then .notify_all else .notify_one]⟩ := by
  simp [event_signal, h]

/-- Witness for C5: a concrete manual-reset event is set signaled and
its condvar broadcast. -/
theorem event_signal_sets_then_notifies_witness :
    event_signal (some ⟨false, true⟩) ⟨.success, .success, .success⟩ =
      ⟨0, some ⟨true, true⟩, [.set_signaled true, .notify_all]⟩ :=
  event_signal_sets_then_notifies ⟨false, true⟩ ⟨.success, .success, .success⟩ rfl

/-- C6: whenever `event_wait` observes `signaled` true while holding
the event mutex it exits with no further condvar wait, clearing
`signaled` for an auto-reset event and leaving it true for a
manual-reset one.  First conjunct: the wait loop, at any observation
point, exits immediately with success and latch value equal to
`is_manual_reset`.  Second conjunct: the full call returns success
(the final unlock, merged into the status, succeeding). -/
theorem event_wait_consumes_signal :
    (∀ (manual : Bool) (rest : List (ThrdStatus × Bool)),
        event_wait_loop manual true rest = some (.success, manual, 0)) ∧
    (∀ (e : EventState) (hd : Bool) (o : WaitOracle),
        o.lockSt = .success → o.unlockSt = .success → e.signaled = true →
        event_wait (some e) hd o =
          (some 0, some { e with signaled := e.is_manual_reset }, 0)) := by
  constructor
  · intro manual rest; simp [event_wait_loop]
  · intro e hd o hl hu hs
    simp [event_wait, hl, hs, event_wait_loop, hu, thrd_status_to_errno]

/-- Witness for C6: a signaled auto-reset event is consumed with zero
condvar waits and reads unsignaled afterwards. -/
theorem event_wait_consumes_signal_witness :
    event_wait (some ⟨true, false⟩) false ⟨.success, [], .success⟩ =
      (some 0, some ⟨false, false⟩, 0) :=
  event_wait_consumes_signal.2 ⟨true, false⟩ false ⟨.success, [], .success⟩ rfl rfl rfl

/-- C7: with a one-element array and arguments passing validation
(wait_all mode, or the out pointer present — it is required in wait_any
mode), `event_wait_multiple` returns exactly the result of `event_wait`
on that single event with the same deadline and the same oracle. -/
theorem wait_multiple_count_one_delegates (oe : Option EventState)
    (wait_all has_deadline has_out : Bool) (o : MultiOracle)
    (h : wait_all = true ∨ has_out = true) :
    (event_wait_multiple (some [oe]) 1 wait_all has_deadline has_out o).res =
      (event_wait oe has_deadline o.single).1 := by
  rcases h with h | h <;> subst h <;> simp [event_wait_multiple, List.getD]

/-- Witness for C7: count one on a signaled auto-reset event returns
what `event_wait` returns on it. -/
theorem wait_multiple_count_one_delegates_witness :
    (event_wait_multiple (some [some ⟨true, false⟩]) 1 false false true oNull).res =
      (event_wait (some ⟨true, false⟩) false oNull.single).1 :=
  wait_multiple_count_one_delegates (some ⟨true, false⟩) false false true oNull (Or.inr rfl)

/-- C8: `event_wait_multiple` with count zero returns success for every
array pointer (null included), every deadline, both wait_all values and
both out-pointer states, leaving 0 in a non-null out slot and
performing no action; in particular the result does not depend on the
array pointer, which is never dereferenced. -/
theorem wait_multiple_count_zero_succeeds (p_events : Option EvArr)
    (wait_all has_deadline has_out : Bool) (o : MultiOracle) :
    event_wait_multiple p_events 0 wait_all has_deadline has_out o =
      ⟨some 0, if has_out then some 0 else none, []⟩ := by
  simp [event_wait_multiple]

/-- C9 counterexample: calling `event_wait_multiple` in wait_any mode
with a null out-index pointer does not always return EINVAL — with
count zero the call succeeds before validation runs. -/
theorem wait_any_null_out_not_always_einval_cex :
    (event_wait_multiple none 0 false false false oNull).res = some 0 ∧
    (event_wait_multiple none 0 false false false oNull).res ≠ some EINVAL := by
  constructor
  · rfl
  · decide

/-- C9 (amended): a null handle to `event_signal`, `event_reset`,
`event_pulse`, `event_wait` or `event_init` returns EINVAL; a null
event array with nonzero count, and wait_any mode with *nonzero count*
and a null out-index pointer, return EINVAL from
`event_wait_multiple` (with count zero the call returns success before
validating). -/
theorem null_arguments_return_einval :
    (∀ o, (event_signal none o).err = EINVAL) ∧
    (∀ l u, (event_reset none l u).1 = EINVAL) ∧
    (∀ so l u, (event_pulse none so l u).1 = EINVAL) ∧
    (∀ hd o, (event_wait none hd o).1 = some EINVAL) ∧
    (∀ m i ms cs, (event_init false m i ms cs).1 = EINVAL) ∧
    (∀ c wa hd ho o, c ≠ 0 →
        (event_wait_multiple none c wa hd ho o).res = some EINVAL) ∧
    (∀ (evs : EvArr) c hd o, c ≠ 0 →
        (event_wait_multiple (some evs) c false hd false o).res = some EINVAL) := by
  refine ⟨fun o => rfl, fun l u => rfl, fun so l u => rfl, fun hd o => rfl,
    fun m i ms cs => rfl, ?_, ?_⟩
  · intro c wa hd ho o hc
    simp [event_wait_multiple, hc]
  · intro evs c hd o hc
    simp [event_wait_multiple, hc]

/-- Witness for C9 (amended): concrete nonzero-count invalid calls
return EINVAL. -/
theorem null_arguments_return_einval_witness :
    (event_wait_multiple none 3 true false false oNull).res = some EINVAL ∧
    (event_wait_multiple (some [none]) 2 false false false oNull).res = some EINVAL :=
  ⟨null_arguments_return_einval.2.2.2.2.2.1 3 true false false oNull (by decide),
   null_arguments_return_einval.2.2.2.2.2.2 [none] 2 false oNull (by decide)⟩

/-- Loop-pass oracle: both proxies done, group verification observes
event 0 unsignaled (a competitor consumed it after the proxy reported),
all primitive statuses successful. -/
def verifyFailIter : IterOracle :=
  ⟨[true, true], [false, true], [.success, .success], [.success, .success], true, .success⟩

/-- Loop-pass oracle: both proxies done, group verification observes
both events signaled. -/
def verifyOkIter : IterOracle :=
  ⟨[true, true], [true, true], [.success, .success], [.success, .success], true, .success⟩

/-- Two rounds: the first round's group verification fails on event 0,
the second succeeds. -/
def oRestartLeak : MultiOracle :=
  ⟨true, .success, .success, wOK,
   [⟨[.success, .success], [joinOK, joinOK], [verifyFailIter]⟩,
    ⟨[.success, .success], [joinOK, joinOK], [verifyOkIter]⟩]⟩

/-- C1 (code evaluation at the failing input): in wait_all mode, when
group verification observes event 0 unsignaled, the wait does restart
and eventually succeeds — but the mutex of the observed-unsignaled
event, acquired by the verification, is never released: over the whole
call event 0's mutex is locked twice yet unlocked once.  The unlock
loop `for (i = 0; i < locked; ++i)` (events.c:281) stops below
`locked`, the index whose event was seen unsignaled, whose mutex the
lock loop had just acquired (events.c:271-277). -/
theorem wait_all_failed_verification_leaks_lock :
    (event_wait_multiple (some [some ⟨false, false⟩, some ⟨false, false⟩]) 2 true false false
        oRestartLeak).res = some 0 ∧
    Act.restart ∈ (event_wait_multiple (some [some ⟨false, false⟩, some ⟨false, false⟩]) 2 true
        false false oRestartLeak).trace ∧
    (event_wait_multiple (some [some ⟨false, false⟩, some ⟨false, false⟩]) 2 true false false
        oRestartLeak).trace.count (Act.lock 0) = 2 ∧
    (event_wait_multiple (some [some ⟨false, false⟩, some ⟨false, false⟩]) 2 true false false
        oRestartLeak).trace.count (Act.unlock 0) = 1 := by
  decide

/-- The second `thrd_create` fails; nothing else is exercised. -/
def oSpawnFail : MultiOracle :=
  ⟨true, .success, .success, wOK, [⟨[.success, .error], [], []⟩]⟩

/-- C2 (code evaluation at the failing input): when creating the second
proxy fails, the call joins the first proxy and returns the primitive
error, but the trace holds no cancellation store and no condvar
broadcast: the already-spawned proxy is joined without ever being
canceled (events.c:232-235 precedes the `goto` past
`clean_up_threads`), so in the real program that join never returns
while the proxy's event stays unsignaled. -/
theorem spawn_failure_joins_without_cancel :
    (event_wait_multiple (some [some ⟨false, false⟩, some ⟨false, false⟩]) 2 true false false
        oSpawnFail).trace = [Act.spawn 0, Act.spawn_fail 1, Act.join_discard 0] ∧
    (event_wait_multiple (some [some ⟨false, false⟩, some ⟨false, false⟩]) 2 true false false
        oSpawnFail).res = some (-1) ∧
    Act.cancel 0 ∉ (event_wait_multiple (some [some ⟨false, false⟩, some ⟨false, false⟩]) 2 true
        false false oSpawnFail).trace ∧
    Act.broadcast 0 ∉ (event_wait_multiple (some [some ⟨false, false⟩, some ⟨false, false⟩]) 2
        true false false oSpawnFail).trace := by
  decide

/-- Wait_any pass: proxy 0 done, and the `mtx_lock` of the auto-reset
consume step (events.c:313) fails. -/
def oAnyLockFail : MultiOracle :=
  ⟨true, .success, .success, wOK,
   [⟨[.success, .success], [joinOK, joinOK], [⟨[true, false], [], [], [], false, .success⟩]⟩]⟩

/-- C3 counterexample: a wait_any call over two auto-reset events
returns success with index 0, the winning event is auto-reset, yet no
store clearing `p_events[0]->signaled` is performed — the `mtx_lock` at
the consume step failed and events.c:313 silently skips the clear while
still reporting success, so the event still reads signaled afterwards,
against the claim that on success an auto-reset winner is cleared
before returning. -/
theorem wait_any_success_without_clear_cex :
    (event_wait_multiple (some [some ⟨true, false⟩, some ⟨false, false⟩]) 2 false false true
        oAnyLockFail).res = some 0 ∧
    (event_wait_multiple (some [some ⟨true, false⟩, some ⟨false, false⟩]) 2 false false true
        oAnyLockFail).idx = some 0 ∧
    (event_at [some ⟨true, false⟩, some ⟨false, false⟩] 0).is_manual_reset = false ∧
    Act.clear 0 ∉ (event_wait_multiple (some [some ⟨true, false⟩, some ⟨false, false⟩]) 2 false
        false true oAnyLockFail).trace := by
  decide

/-! Helper lemmas shared by the coordinator theorems. -/

/-- No status of a C11 thread primitive translates to ECANCELED. -/
theorem thrd_status_to_errno_ne_ecanceled (st : ThrdStatus) :
    thrd_status_to_errno st ≠ ECANCELED := by
  cases st <;> decide

/-- Proxy exit codes deliverable to the coordinator by the reads of one
round's joins: zero (the default) or a value listed in the oracle. -/
def JoinErrOk (joins : List JoinOutcome) (v : Int) : Prop :=
  v = 0 ∨ ∃ jo ∈ joins, v = jo.err

theorem joinErrOk_getD (joins : List JoinOutcome) (i : Nat) :
    JoinErrOk joins (joins.getD i ⟨.success, 0⟩).err := by
  rcases h : joins[i]? with _ | jo
  · left; simp [List.getD_eq_getElem?_getD, h]
  · right; exact ⟨jo, List.getElem?_mem h, by simp [List.getD_eq_getElem?_getD, h]⟩

/-- Every early exit of a wait_all scan pass carries an `err` that is 0
or one of the round's join exit codes. -/
theorem wait_all_scan_exit_err (doneF : List Bool) (joins : List JoinOutcome) :
    ∀ (l : List Nat) (jb : List Bool) (as : Bool) (st : ThrdStatus) (v : Int),
      (wait_all_scan doneF joins l jb as).2.2.2 = some (st, v) → JoinErrOk joins v := by
  intro l
  induction l with
  | nil => intro jb as st v h; simp [wait_all_scan] at h
  | cons i rest ih =>
    intro jb as st v h
    simp only [wait_all_scan] at h
    split at h
    · split at h
      · split at h
        · split at h
          · exact ih _ _ _ _ h
          · simp only [Prod.mk.injEq, Option.some.injEq] at h
            rw [← h.2]
            exact joinErrOk_getD joins i
        · simp only [Prod.mk.injEq, Option.some.injEq] at h
          exact Or.inl h.2.symm
      · exact ih _ _ _ _ h
    · exact ih _ _ _ _ h

/-- Every exit of a wait_any scan pass carries an `err` that is 0 or
one of the round's join exit codes; moreover an exit that wrote the
index has a success status and `err` 0. -/
theorem wait_any_scan_exit (evs : EvArr) (doneF : List Bool) (joins : List JoinOutcome)
    (lockOk : Bool) :
    ∀ (l : List Nat) (jb : List Bool) (idxO : Option Nat) (st : ThrdStatus) (v : Int),
      (wait_any_scan evs doneF joins lockOk l jb).2.2 = some (idxO, st, v) →
      JoinErrOk joins v ∧ (idxO ≠ none → st = .success ∧ v = 0) := by
  intro l
  induction l with
  | nil => intro jb idxO st v h; simp [wait_any_scan] at h
  | cons i rest ih =>
    intro jb idxO st v h
    simp only [wait_any_scan] at h
    split at h
    · split at h
      · split at h
        · split at h
          · simp only [Prod.mk.injEq, Option.some.injEq] at h
            exact ⟨Or.inl h.2.2.symm, fun _ => ⟨h.2.1.symm, h.2.2.symm⟩⟩
          · simp only [Prod.mk.injEq, Option.some.injEq] at h
            refine ⟨?_, fun hne => absurd h.1.symm hne⟩
            rw [← h.2.2]
            exact joinErrOk_getD joins i
        · simp only [Prod.mk.injEq, Option.some.injEq] at h
          exact ⟨Or.inl h.2.2.symm, fun hne => absurd h.1.symm hne⟩
      · simp only [Prod.mk.injEq, Option.some.injEq] at h
        exact ⟨Or.inl h.2.2.symm, fun _ => ⟨h.2.1.symm, h.2.2.symm⟩⟩
    · exact ih _ _ _ _ h

/-- Every exit of the coordinator loop carries an `err` that is 0 or
one of the round's join exit codes; an exit that wrote the out index is
a wait_any exit with `err` 0 and a success status. -/
theorem coordinator_loop_exit (wa : Bool) (c : Nat) (evs : EvArr) (joins : List JoinOutcome) :
    ∀ (iters : List IterOracle) (jb : List Bool) (tr : List Act) (ex : IterExit),
      coordinator_loop wa c evs joins iters jb tr = .exit ex →
      JoinErrOk joins ex.err ∧
      (ex.idxW ≠ none → wa = false ∧ ex.err = 0 ∧ ex.thrdSt = .success) := by
  intro iters
  induction iters with
  | nil => intro jb tr ex h; simp [coordinator_loop] at h
  | cons it rest ih =>
    intro jb tr ex h
    simp only [coordinator_loop] at h
    split at h
    · -- wait_all mode
      split at h
      · rename_i st e heq
        cases h
        exact ⟨wait_all_scan_exit_err _ _ _ _ _ _ _ heq, fun hne => absurd rfl hne⟩
      · split at h
        · cases h
          exact ⟨Or.inl rfl, fun hne => absurd rfl hne⟩
        · split at h
          · exact ih _ _ _ h
          · cases h
            exact ⟨Or.inl rfl, fun hne => absurd rfl hne⟩
    · -- wait_any mode
      rename_i hwa
      split at h
      · rename_i idxO st e heq
        cases h
        have hs := wait_any_scan_exit evs it.doneFlags joins it.anyLockOk _ _ _ _ _ heq
        refine ⟨hs.1, fun hne => ?_⟩
        rcases hs.2 hne with ⟨h1, h2⟩
        exact ⟨by simpa using hwa, h2, h1⟩
      · split at h
        · exact ih _ _ _ h
        · cases h
          exact ⟨Or.inl rfl, fun hne => absurd rfl hne⟩

/-- A teardown that returns passes through the exit's index write and
computes the return value from `err` and `thrd_status`. -/
theorem clean_up_threads_ret (wa : Bool) (c : Nat) (ex : IterExit) (r : Int)
    (iW : Option Nat) (tr : List Act)
    (h : clean_up_threads wa c ex = .ret r iW tr) :
    iW = ex.idxW ∧ r = (if ex.err = 0 then thrd_status_to_errno ex.thrdSt else ex.err) := by
  unfold clean_up_threads at h
  split at h
  · simp at h
  · cases h; exact ⟨rfl, rfl⟩

/-- A round that returns does so with an errno of some primitive status
or one of its join exit codes; if it wrote the out index, it is a
wait_any round returning 0. -/
theorem wait_round_ret (wa : Bool) (c : Nat) (evs : EvArr) (ro : RoundOracle)
    (r : Int) (iW : Option Nat) (tr : List Act)
    (h : wait_round wa c evs ro = .ret r iW tr) :
    ((∃ st, r = thrd_status_to_errno st) ∨ ∃ jo ∈ ro.joins, r = jo.err) ∧
    (iW ≠ none → wa = false ∧ r = 0) := by
  simp only [wait_round] at h
  split at h
  · cases h
    exact ⟨Or.inl ⟨_, rfl⟩, fun hne => absurd rfl hne⟩
  · split at h
    · simp at h
    · rename_i e heq
      have hc := coordinator_loop_exit wa c evs ro.joins _ _ _ _ heq
      have hcl := clean_up_threads_ret wa c e r iW tr h
      constructor
      · rw [hcl.2]
        split
        · exact Or.inl ⟨_, rfl⟩
        · rcases hc.1 with h0 | hmem
          · exact absurd h0 (by assumption)
          · exact Or.inr hmem
      · intro hne
        rw [hcl.1] at hne
        rcases hc.2 hne with ⟨hwa, herr, hst⟩
        refine ⟨hwa, ?_⟩
        rw [hcl.2, herr, hst]
        rfl

/-- `wait_rounds` returns an errno of some primitive status or a join
exit code of one of its rounds; when it reports an index it is a
wait_any run returning 0. -/
theorem wait_rounds_spec (wa : Bool) (c : Nat) (evs : EvArr) :
    ∀ (rounds : List RoundOracle),
      (∀ v, (wait_rounds wa c evs rounds).1 = some v →
        (∃ st, v = thrd_status_to_errno st) ∨ ∃ ro ∈ rounds, ∃ jo ∈ ro.joins, v = jo.err) ∧
      (∀ i, (wait_rounds wa c evs rounds).2.1 = some i →
        wa = false ∧ (wait_rounds wa c evs rounds).1 = some 0) := by
  intro rounds
  induction rounds with
  | nil => exact ⟨fun v h => by simp [wait_rounds] at h, fun i h => by simp [wait_rounds] at h⟩
  | cons ro rest ih =>
    constructor
    · intro v h
      simp only [wait_rounds] at h
      split at h
      · rename_i r iW tr heq
        simp only [Option.some.injEq] at h
        subst h
        rcases (wait_round_ret wa c evs ro _ _ _ heq).1 with h1 | h2
        · exact Or.inl h1
        · exact Or.inr ⟨ro, List.mem_cons_self _ _, h2⟩
      · simp at h
      · rcases ih.1 v h with h1 | ⟨ro2, hm, h2⟩
        · exact Or.inl h1
        · exact Or.inr ⟨ro2, List.mem_cons_of_mem _ hm, h2⟩
    · intro i h
      simp only [wait_rounds] at h ⊢
      split at h
      · rename_i r iW tr heq
        simp only at h
        subst h
        rcases (wait_round_ret wa c evs ro _ _ _ heq).2 (by simp) with ⟨hwa, hr⟩
        subst hr
        exact ⟨hwa, by simp [heq]⟩
      · simp at h
      · rename_i tr heq
        rcases ih.2 i h with ⟨hwa, h0⟩
        exact ⟨hwa, by simp [heq, h0]⟩

/-- A returning `event_wait` yields EINVAL or the errno of a primitive
status. -/
theorem event_wait_res_shape (pe : Option EventState) (hd : Bool) (o : WaitOracle) (v : Int)
    (h : (event_wait pe hd o).1 = some v) :
    v = EINVAL ∨ ∃ st, v = thrd_status_to_errno st := by
  unfold event_wait at h
  split at h
  · simp at h; exact Or.inl h.symm
  · split at h
    · split at h
      · simp at h
      · simp only [Option.some.injEq] at h
        exact Or.inr ⟨_, h.symm⟩
    · simp only [Option.some.injEq] at h
      exact Or.inr ⟨_, h.symm⟩

/-- C4: `event_wait_multiple` never returns ECANCELED to its caller.
First conjunct: a proxy run of `_event_wait_helper` that never observes
its `canceled` flag set cannot exit with ECANCELED; proxies joined
during a scan are such runs, because a proxy publishes `done` after its
last `canceled` read and each round cancels (in teardown) only proxies
not yet done, after all scan joins of that round.  Second conjunct:
for every oracle whose join exit codes avoid ECANCELED — by the first
conjunct, any oracle drawn from the program's proxies — every return
value of `event_wait_multiple` differs from ECANCELED, over all
argument combinations. -/
theorem event_wait_helper_loop_uncanceled :
    ∀ (l : List (ThrdStatus × Bool × Bool)),
      (∀ w ∈ l, w.2.1 = false) →
      ∀ sig, event_wait_helper_loop l = some (.success, sig) → sig = true := by
  intro l
  induction l with
  | nil => intro hunc sig h; simp [event_wait_helper_loop] at h
  | cons w rest ih =>
    intro hunc sig h
    obtain ⟨ws, wc, wsig⟩ := w
    have hwc : wc = false := hunc _ (List.mem_cons_self _ _)
    subst hwc
    simp only [event_wait_helper_loop] at h
    split at h
    · simp only [Bool.false_eq_true, if_false] at h
      split at h
      · simp only [Option.some.injEq, Prod.mk.injEq] at h
        exact h.2.symm
      · exact ih (fun w hw => hunc w (List.mem_cons_of_mem _ hw)) sig h
    · simp only [Option.some.injEq, Prod.mk.injEq] at h
      rename_i hws
      exact absurd h.1 hws

/-- C4: `event_wait_multiple` never returns ECANCELED to its caller.
First conjunct: a proxy run of `_event_wait_helper` that never observes
its `canceled` flag set cannot exit with ECANCELED; the proxies joined
during a scan are such runs, because a proxy publishes `done` after its
last `canceled` read and each round cancels (in teardown) only proxies
not yet done, after all scan joins of that round.  Second conjunct:
for every oracle whose join exit codes avoid ECANCELED — by the first
conjunct, any oracle drawn from the program's proxies — every return
value of `event_wait_multiple` differs from ECANCELED, over all
argument combinations. -/
theorem wait_multiple_never_returns_ecanceled :
    (∀ (e : EventState) (ho : HelperOracle),
        (∀ w ∈ ho.wakeups, w.2.1 = false) →
        event_wait_helper e ho ≠ some ECANCELED) ∧
    (∀ (p_events : Option EvArr) (c_events : Nat) (wa hd hout : Bool) (o : MultiOracle),
        (∀ ro ∈ o.rounds, ∀ jo ∈ ro.joins, jo.err ≠ ECANCELED) →
        (event_wait_multiple p_events c_events wa hd hout o).res ≠ some ECANCELED) := by
  constructor
  · intro e ho hunc hc
    unfold event_wait_helper at hc
    by_cases hlk : ho.lockSt = ThrdStatus.success
    · rw [if_pos hlk] at hc
      by_cases hsg : e.signaled = true
      · rw [if_pos hsg] at hc
        exact thrd_status_to_errno_ne_ecanceled _ (Option.some.inj hc)
      · rw [if_neg hsg] at hc
        rcases hl : event_wait_helper_loop ho.wakeups with _ | ⟨st, sig⟩ <;> rw [hl] at hc
        · simp at hc
        · rcases hun : ho.unlockSt with _ | _ | _ | _ | _ <;> rw [hun] at hc <;>
            cases st <;> cases sig <;>
            first
              | exact absurd hc (by decide)
              | exact absurd (event_wait_helper_loop_uncanceled _ hunc false hl) (by decide)
    · rw [if_neg hlk] at hc
      exact thrd_status_to_errno_ne_ecanceled _ (Option.some.inj hc)
  · intro p_events c_events wa hd hout o hjoins hc
    simp only [event_wait_multiple] at hc
    split at hc
    · simp [ECANCELED] at hc
    · split at hc
      · simp [EINVAL, ECANCELED] at hc
      · split at hc
        · simp [EINVAL, ECANCELED] at hc
        · split at hc
          · rcases event_wait_res_shape _ _ _ _ hc with h1 | ⟨st, h2⟩
            · exact absurd h1 (by decide)
            · exact thrd_status_to_errno_ne_ecanceled st h2.symm
          · split at hc
            · simp [ENOMEM, ECANCELED] at hc
            · split at hc
              · split at hc
                · rcases (wait_rounds_spec wa c_events _ o.rounds).1 _ hc with
                    ⟨st, h1⟩ | ⟨ro, hro, jo, hjo, h2⟩
                  · exact thrd_status_to_errno_ne_ecanceled st h1.symm
                  · exact hjoins ro hro jo hjo h2.symm
                · exact thrd_status_to_errno_ne_ecanceled _ (Option.some.inj hc)
              · exact thrd_status_to_errno_ne_ecanceled _ (Option.some.inj hc)

/-- A small fully-successful oracle for the C4 witness. -/
def oAllDone : MultiOracle :=
  ⟨true, .success, .success, wOK,
   [⟨[.success, .success], [joinOK, joinOK], [verifyOkIter]⟩]⟩

/-- Witness for C4: a concrete uncanceled helper run and a concrete
successful two-event wait_all call, neither yielding ECANCELED. -/
theorem wait_multiple_never_returns_ecanceled_witness :
    event_wait_helper ⟨false, false⟩ ⟨.success, [(.success, false, true)], .success⟩ ≠
      some ECANCELED ∧
    (event_wait_multiple (some [some ⟨false, false⟩, some ⟨false, false⟩]) 2 true false false
        oAllDone).res ≠ some ECANCELED :=
  ⟨wait_multiple_never_returns_ecanceled.1 ⟨false, false⟩
      ⟨.success, [(.success, false, true)], .success⟩ (by decide),
   wait_multiple_never_returns_ecanceled.2 (some [some ⟨false, false⟩, some ⟨false, false⟩])
      2 true false false oAllDone (by decide)⟩

/-- C10: with a non-null out pointer, `event_wait_multiple` stores 0
through it at entry, before any validation or waiting; on every return
path — wait_all mode, count zero, invalid arguments, timeout,
primitive failure, even a call that never returns — the pointed-to
value is still 0 unless a wait_any success overwrote it, the only
later write, in which case the call returns 0. -/
theorem out_index_zero_unless_wait_any_success
    (p_events : Option EvArr) (c_events : Nat) (wa hd : Bool) (o : MultiOracle) :
    ∃ v, (event_wait_multiple p_events c_events wa hd true o).idx = some v ∧
      (v = 0 ∨
        (wa = false ∧ (event_wait_multiple p_events c_events wa hd true o).res = some 0)) := by
  simp only [event_wait_multiple]
  split
  · exact ⟨0, rfl, Or.inl rfl⟩
  · split
    · exact ⟨0, rfl, Or.inl rfl⟩
    · split
      · exact ⟨0, rfl, Or.inl rfl⟩
      · split
        · exact ⟨0, rfl, Or.inl rfl⟩
        · split
          · exact ⟨0, rfl, Or.inl rfl⟩
          · split
            · split
              · rcases hidx : (wait_rounds wa c_events _ o.rounds).2.1 with _ | i
                · exact ⟨0, by simp [hidx], Or.inl rfl⟩
                · rcases (wait_rounds_spec wa c_events _ o.rounds).2 i hidx with ⟨hwa, h0⟩
                  exact ⟨i, by simp [hidx], Or.inr ⟨hwa, by simpa using h0⟩⟩
              · exact ⟨0, rfl, Or.inl rfl⟩
            · exact ⟨0, rfl, Or.inl rfl⟩

/-! Lemmas for the wait_any lowest-index theorem. -/

theorem range_split (i k : Nat) :
    List.range (i + (k + 1)) =
      List.range i ++ i :: ((List.range k).map fun j => i + (j + 1)) := by
  rw [List.range_add, List.range_succ_eq_map, List.map_cons, List.map_map]
  norm_num [Function.comp_def]

/-- A wait_any scan skips a prefix of indices whose proxies are not
done. -/
theorem wait_any_scan_skip (evs : EvArr) (doneF : List Bool) (joins : List JoinOutcome)
    (lockOk : Bool) :
    ∀ (l1 l2 : List Nat) (jb : List Bool),
      (∀ j ∈ l1, doneF.getD j false = false) →
      wait_any_scan evs doneF joins lockOk (l1 ++ l2) jb =
        wait_any_scan evs doneF joins lockOk l2 jb := by
  intro l1
  induction l1 with
  | nil => intro l2 jb h; rfl
  | cons j rest ih =>
    intro l2 jb h
    have hj := h j (List.mem_cons_self _ _)
    simp only [List.cons_append, wait_any_scan, hj, Bool.false_eq_true, if_false]
    exact ih l2 jb (fun x hx => h x (List.mem_cons_of_mem _ hx))

/-- A wait_any scan stops at the first done index: it joins that proxy,
writes its index, and consumes the event if auto-reset and the consume
lock succeeds. -/
theorem wait_any_scan_hit (evs : EvArr) (doneF : List Bool) (joins : List JoinOutcome)
    (lockOk : Bool) (i : Nat) (l : List Nat) (jb : List Bool)
    (hdone : doneF.getD i false = true) (hjb : jb.getD i true = true)
    (hjoin : joins.getD i ⟨.success, 0⟩ = ⟨.success, 0⟩) :
    wait_any_scan evs doneF joins lockOk (i :: l) jb =
      (jb.set i false,
       Act.join i ::
         (if (event_at evs i).is_manual_reset = false ∧ lockOk = true then
           [Act.lock i, Act.clear i, Act.unlock i]
         else []),
       some (some i, ThrdStatus.success, 0)) := by
  simp only [wait_any_scan, hdone, hjb, hjoin, eq_self_iff_true, if_true]

/-- When every `thrd_create` succeeds the spawn loop spawns every proxy
and reports no failure. -/
theorem spawn_proxies_all_success (createSt : List ThrdStatus) :
    ∀ l : List Nat, (∀ j ∈ l, createSt.getD j .success = .success) →
      spawn_proxies createSt l = (l.map Act.spawn, none) := by
  intro l
  induction l with
  | nil => intro h; rfl
  | cons j rest ih =>
    intro h
    have hj := h j (List.mem_cons_self _ _)
    simp only [spawn_proxies, hj, eq_self_iff_true, if_true, List.map_cons,
      ih (fun x hx => h x (List.mem_cons_of_mem _ hx))]

theorem getD_replicate_true (c i : Nat) : (List.replicate c true).getD i true = true := by
  rcases h : (List.replicate c true)[i]? with _ | b
  · simp [List.getD_eq_getElem?_getD, h]
  · have hb : b = true := List.eq_of_mem_replicate (List.getElem?_mem h)
    simp [List.getD_eq_getElem?_getD, h, hb]

/-- C3 (amended): in wait_any mode, when a round's scan finds a done
proxy — at the lowest input-array index observed done — and its join
succeeds with exit code 0, `event_wait_multiple` returns success and
writes that lowest index through the out pointer; if the winning event
is auto-reset the coordinator clears its `signaled` flag under its
mutex provided the `mtx_lock` at the consume step succeeds, while on a
lock failure the flag is left unchanged (no clearing store happens)
and success is still returned. -/
theorem wait_any_lowest_done_index_wins
    (c : Nat) (evs : EvArr) (hd lockOk : Bool) (doneF : List Bool)
    (joins : List JoinOutcome) (creates : List ThrdStatus) (i : Nat)
    (hc : 2 ≤ c) (hi : i < c)
    (hdone : doneF.getD i false = true)
    (hmin : ∀ j, j < i → doneF.getD j false = false)
    (hjoin : joins.getD i ⟨.success, 0⟩ = ⟨.success, 0⟩)
    (hcr : ∀ j, j < c → creates.getD j .success = .success) :
    (event_wait_multiple (some evs) c false hd true
        ⟨true, .success, .success, wOK,
         [⟨creates, joins, [⟨doneF, [], [], [], lockOk, .success⟩]⟩]⟩).res = some 0 ∧
    (event_wait_multiple (some evs) c false hd true
        ⟨true, .success, .success, wOK,
         [⟨creates, joins, [⟨doneF, [], [], [], lockOk, .success⟩]⟩]⟩).idx = some i ∧
    (Act.clear i ∈ (event_wait_multiple (some evs) c false hd true
        ⟨true, .success, .success, wOK,
         [⟨creates, joins, [⟨doneF, [], [], [], lockOk, .success⟩]⟩]⟩).trace ↔
      ((event_at evs i).is_manual_reset = false ∧ lockOk = true)) := by
  have hceq : c = i + (c - i - 1 + 1) := by omega
  have hsp : List.range c =
      List.range i ++ i :: ((List.range (c - i - 1)).map fun j => i + (j + 1)) := by
    conv_lhs => rw [hceq]
    exact range_split i (c - i - 1)
  have hpre : ∀ j ∈ List.range i, doneF.getD j false = false :=
    fun j hj => hmin j (List.mem_range.mp hj)
  have hscan : wait_any_scan evs doneF joins lockOk (List.range c) (List.replicate c true) =
      ((List.replicate c true).set i false,
       Act.join i ::
         (if (event_at evs i).is_manual_reset = false ∧ lockOk = true then
           [Act.lock i, Act.clear i, Act.unlock i]
         else []),
       some (some i, ThrdStatus.success, 0)) := by
    rw [hsp, wait_any_scan_skip evs doneF joins lockOk _ _ _ hpre,
      wait_any_scan_hit evs doneF joins lockOk i _ _ hdone (getD_replicate_true c i) hjoin]
  have hspawn : spawn_proxies creates (List.range c) = ((List.range c).map Act.spawn, none) :=
    spawn_proxies_all_success creates _ (fun j hj => hcr j (List.mem_range.mp hj))
  have hround : wait_round false c evs ⟨creates, joins, [⟨doneF, [], [], [], lockOk, .success⟩]⟩ =
      .ret 0 (some i)
        ((((List.range c).map Act.spawn ++
           (Act.join i ::
             (if (event_at evs i).is_manual_reset = false ∧ lockOk = true then
               [Act.lock i, Act.clear i, Act.unlock i]
             else []))) ++
          ((List.range c).filter (fun j => doneF.getD j false = false)).flatMap
            (fun j => [Act.cancel j, Act.broadcast j])) ++
         ((List.range c).filter
            (fun j => ((List.replicate c true).set i false).getD j true = true)).map
           Act.join_discard) := by
    simp only [wait_round, hspawn, coordinator_loop, hscan, clean_up_threads,
      Bool.false_eq_true, if_false, false_and, eq_self_iff_true, if_true,
      thrd_status_to_errno]
  have hc0 : ¬c = 0 := by omega
  have hc1 : ¬c = 1 := by omega
  have htop : event_wait_multiple (some evs) c false hd true
      ⟨true, .success, .success, wOK,
       [⟨creates, joins, [⟨doneF, [], [], [], lockOk, .success⟩]⟩]⟩ =
      ⟨some 0, some i,
       (((List.range c).map Act.spawn ++
           (Act.join i ::
             (if (event_at evs i).is_manual_reset = false ∧ lockOk = true then
               [Act.lock i, Act.clear i, Act.unlock i]
             else []))) ++
          ((List.range c).filter (fun j => doneF.getD j false = false)).flatMap
            (fun j => [Act.cancel j, Act.broadcast j])) ++
         ((List.range c).filter
            (fun j => ((List.replicate c true).set i false).getD j true = true)).map
           Act.join_discard⟩ := by
    simp only [event_wait_multiple, hc0, hc1, if_false, wait_rounds, hround,
      eq_self_iff_true, if_true, Bool.true_eq_false, Bool.false_eq_true, and_false,
      false_and, and_true, true_and, Option.getD_some]
  rw [htop]
  refine ⟨rfl, rfl, ?_⟩
  by_cases hcond : (event_at evs i).is_manual_reset = false ∧ lockOk = true
  · simp only [hcond, if_true, eq_self_iff_true, and_self, iff_true]
    simp [List.mem_append]
  · simp only [hcond, if_false, iff_false]
    intro hmem
    simp only [List.mem_append, List.mem_cons, List.mem_map, List.mem_flatMap,
      List.mem_filter, List.mem_singleton] at hmem
    rcases hmem with ((h1 | h2) | h3) | h4
    · rcases h1 with ⟨x, hx, hax⟩
      exact Act.noConfusion hax
    · rcases h2 with h2 | h2
      · exact Act.noConfusion h2
      · simp at h2
    · rcases h3 with ⟨x, hx, hax⟩
      simp at hax
    · rcases h4 with ⟨x, hx, hax⟩
      exact Act.noConfusion hax

/-- Witness for C3 (amended): two events, proxy 1 (auto-reset, lowest
done index) wins, the consume lock succeeds, the flag is cleared. -/
theorem wait_any_lowest_done_index_wins_witness :
    (event_wait_multiple (some [some ⟨false, false⟩, some ⟨true, false⟩]) 2 false false true
        ⟨true, .success, .success, wOK,
         [⟨[.success, .success], [joinOK, joinOK],
           [⟨[false, true], [], [], [], true, .success⟩]⟩]⟩).res = some 0 ∧
    (event_wait_multiple (some [some ⟨false, false⟩, some ⟨true, false⟩]) 2 false false true
        ⟨true, .success, .success, wOK,
         [⟨[.success, .success], [joinOK, joinOK],
           [⟨[false, true], [], [], [], true, .success⟩]⟩]⟩).idx = some 1 ∧
    (Act.clear 1 ∈ (event_wait_multiple (some [some ⟨false, false⟩, some ⟨true, false⟩]) 2 false
        false true
        ⟨true, .success, .success, wOK,
         [⟨[.success, .success], [joinOK, joinOK],
           [⟨[false, true], [], [], [], true, .success⟩]⟩]⟩).trace ↔
      ((event_at [some ⟨false, false⟩, some ⟨true, false⟩] 1).is_manual_reset = false ∧
        true = true)) :=
  wait_any_lowest_done_index_wins 2 [some ⟨false, false⟩, some ⟨true, false⟩] false true
    [false, true] [joinOK, joinOK] [.success, .success] 1 (by decide) (by decide) (by decide)
    (fun j hj => by
      have hj0 : j = 0 := by omega
      subst hj0; rfl)
    (by decide)
    (fun j hj => by
      match j, hj with
      | 0, _ => rfl
      | 1, _ => rfl)

end C11Events
